import Mathlib

/-!
Verification of the port-forwarding control plane of skaffold
(`pkg/skaffold/kubernetes/portforward`) and of the error classifier
(`pkg/skaffold/errors/errors.go`).

The repository snapshot ships the test file
`pkg/skaffold/kubernetes/portforward/pod_forwarder_test.go` and
`pkg/skaffold/errors/errors.go`.  The Entry Manager / Watching Pod
Forwarder / Port Allocator implementations (`pod_forwarder.go`,
`entry_manager.go`, the port utility) are not part of the snapshot, so the
forwarding side of the development is modelled from the specification and
settled against that model; the test file pins the concrete shapes (entry
fields, key format, expected registries).  The error-classifier side is a
direct embedding of `errors.go`.
-/

namespace PortForward

/-- Modelled from the spec: `latest.PortForwardResource` as it appears in the
expected entries of the tests (fields Type, Name, Namespace, Port, LocalPort).
`namespace` is a Lean keyword, so the field is called `nspace`. -/
structure PortForwardResource where
  type : String
  name : String
  nspace : String
  port : Nat
  localPort : Nat
deriving Repr, DecidableEq

/-- Modelled from the spec: the `portForwardEntry` record (fields as in the
test file: resourceVersion, podName, containerName, portName, resource,
automaticPodForwarding, localPort).  `pod_forwarder.go` is not in the
snapshot. -/
structure portForwardEntry where
  resourceVersion : Nat
  podName : String
  containerName : String
  portName : String
  resource : PortForwardResource
  automaticPodForwarding : Bool
  localPort : Nat
deriving Repr, DecidableEq

/-- Modelled from the spec: a ForwardingTarget — one forwardable container
port: namespace, pod name, container name, port name, container port number,
resource version of the owning pod (a string), and the automatic flag. -/
structure ForwardingTarget where
  nspace : String
  podName : String
  containerName : String
  portName : String
  containerPort : Nat
  resourceVersion : String
  automatic : Bool
deriving Repr, DecidableEq

/-- Modelled from the spec: the identity key
`(containerName, namespace, portName, containerPort)` formatted as a single
string, the four components joined by hyphens (observed form in the tests:
`containername-namespace-portname-8080`). -/
def buildKey (t : ForwardingTarget) : String :=
  t.containerName ++ "-" ++ t.nspace ++ "-" ++ t.portName ++ "-" ++
    toString t.containerPort

/-- Lookup in an association list keyed by the entry key (the Forwarded
Resource Registry is a map from key to entry). -/
def lookupEntry (m : List (String × portForwardEntry)) (k : String) :
    Option portForwardEntry :=
  match m with
  | [] => none
  | (k', e) :: rest => if k' = k then some e else lookupEntry rest k

/-- Insert/replace in the association list: an existing binding for the key is
replaced in place, otherwise the binding is appended at the end. -/
def insertEntry (m : List (String × portForwardEntry)) (k : String)
    (e : portForwardEntry) : List (String × portForwardEntry) :=
  match m with
  | [] => [(k, e)]
  | (k', e') :: rest =>
      if k' = k then (k, e) :: rest else (k', e') :: insertEntry rest k e

/-- Modelled from the spec: the Port Allocator,
`allocate(preferred, taken) -> (int, error)`.  If `preferred` is not taken and
is usable (member of the candidate pool), return it; otherwise scan the pool
skipping taken ports and return the first usable one; `none` is
`PortExhaustedError`.  The pool is the implementation-defined candidate range
(the provided `availablePorts` in the tests). -/
def allocatePort (preferred : Nat) (taken : List Nat) (pool : List Nat) :
    Option Nat :=
  if preferred ∈ pool ∧ preferred ∉ taken then some preferred
  else (pool.filter (fun p => decide (p ∉ taken))).head?

/-- Modelled from the spec: the error taxonomy of the Entry Manager
(`InvalidResourceVersionError`, `PortExhaustedError`, `ForwardSessionError`). -/
inductive PFError where
  | invalidResourceVersion
  | portExhausted
  | forwardFailed
deriving Repr, DecidableEq

/-- Modelled from the spec: the Entry Manager's state — the Local Port
Registry (taken local ports), the Forwarded Resource Registry (key → entry),
and counters of the backend calls issued (`forward` and `terminate`). -/
structure PFState where
  forwardedPorts : List Nat
  forwardedResources : List (String × portForwardEntry)
  forwardCalls : Nat
  terminateCalls : Nat
deriving Repr, DecidableEq

/-- The Entry Manager's initial state: empty registries, no backend calls. -/
def initState : PFState := ⟨[], [], 0, 0⟩

/-- Whether a character is a decimal digit. -/
def isDigitChar (c : Char) : Bool := decide ('0' ≤ c ∧ c ≤ '9')

/-- Modelled from the spec: parse the resource-version string as an integer
(monotonic per pod, compared as an integer though observed as a string).  A
string parses exactly when it is a non-empty run of decimal digits; anything
else is the `InvalidResourceVersionError` case. -/
def parseResourceVersion (s : String) : Option Nat :=
  if s.data ≠ [] ∧ ∀ c ∈ s.data, isDigitChar c then
    some (s.data.foldl (fun n c => n * 10 + (c.toNat - Char.toNat '0')) 0)
  else none

/-- Modelled from the spec: the entry constructed for a first-seen target:
state from the target, the embedded resource keeps the container port in both
its Port and LocalPort fields (the test expects `resource.LocalPort = 8080`
even when the entry's own `localPort` is 9000), and the allocated local port
is stored in the entry's `localPort`. -/
def newEntry (t : ForwardingTarget) (rv p : Nat) : portForwardEntry :=
  { resourceVersion := rv
    podName := t.podName
    containerName := t.containerName
    portName := t.portName
    resource :=
      { type := "pod"
        name := t.podName
        nspace := t.nspace
        port := t.containerPort
        localPort := t.containerPort }
    automaticPodForwarding := t.automatic
    localPort := p }

/-- Modelled from the spec: the Entry Manager's
`processTarget(target) -> error` (its implementation `entry_manager.go` /
`pod_forwarder.go` is not in the snapshot).
1. parse the resource-version string; on failure fail with
   `InvalidResourceVersionError` touching nothing;
2. look up the entry by key:
   not found — allocate a local port (container port preferred), record it in
   the Local Port Registry, build the entry, invoke the backend's `forward`,
   and record the entry in the Forwarded Resource Registry whether `forward`
   succeeded or failed, propagating a `forward` failure;
   found with stored resource version ≥ incoming — idempotent no-op;
   found with stored resource version < incoming — terminate the old backend
   session, update the resource version in place keeping the local port,
   invoke `forward` again, record regardless, propagate any failure.
`forwardFails` models the external forwarding backend's outcome. -/
def processTarget (pool : List Nat) (forwardFails : Bool) (s : PFState)
    (t : ForwardingTarget) : PFState × Option PFError :=
  match parseResourceVersion t.resourceVersion with
  | none => (s, some .invalidResourceVersion)
  | some rv =>
    match lookupEntry s.forwardedResources (buildKey t) with
    | none =>
      match allocatePort t.containerPort s.forwardedPorts pool with
      | none => (s, some .portExhausted)
      | some p =>
        ({ forwardedPorts := p :: s.forwardedPorts
           forwardedResources := insertEntry s.forwardedResources (buildKey t)
             (newEntry t rv p)
           forwardCalls := s.forwardCalls + 1
           terminateCalls := s.terminateCalls },
         if forwardFails then some .forwardFailed else none)
    | some existing =>
      if rv ≤ existing.resourceVersion then (s, none)
      else
        ({ forwardedPorts := s.forwardedPorts
           forwardedResources := insertEntry s.forwardedResources (buildKey t)
             { existing with resourceVersion := rv }
           forwardCalls := s.forwardCalls + 1
           terminateCalls := s.terminateCalls + 1 },
         if forwardFails then some .forwardFailed else none)

/-- Process a sequence of targets, threading the state. -/
def processTargets (pool : List Nat) (forwardFails : Bool) (s : PFState)
    (ts : List ForwardingTarget) : PFState :=
  ts.foldl (fun acc t => (processTarget pool forwardFails acc t).1) s

/-- A declared container port (`v1.ContainerPort`: Name, ContainerPort). -/
structure ContainerPort where
  name : String
  containerPort : Nat
deriving Repr, DecidableEq

/-- A container of a pod (`v1.Container`: Name, Image, Ports). -/
structure Container where
  name : String
  image : String
  ports : List ContainerPort
deriving Repr, DecidableEq

/-- A pod (`v1.Pod`: metadata Name / Namespace / ResourceVersion, the
containers of its spec, and its status phase). -/
structure Pod where
  name : String
  nspace : String
  resourceVersion : String
  phase : String
  containers : List Container
deriving Repr, DecidableEq

/-- Modelled from the spec: the ForwardingTarget built by the Watching Pod
Forwarder for one declared port of one container of a pod (automatic pod
forwarding). -/
def mkTarget (pod : Pod) (c : Container) (pt : ContainerPort) :
    ForwardingTarget :=
  { nspace := pod.nspace
    podName := pod.name
    containerName := c.name
    portName := pt.name
    containerPort := pt.containerPort
    resourceVersion := pod.resourceVersion
    automatic := true }

/-- The targets contributed by one container: one per declared port. -/
def containerTargets (pod : Pod) (c : Container) : List ForwardingTarget :=
  c.ports.map (mkTarget pod c)

/-- All targets of a pod: for each container, for each of its declared
ports. -/
def podTargets (pod : Pod) : List ForwardingTarget :=
  (pod.containers.map (containerTargets pod)).flatten

/-- Modelled from the spec: `portForwardPod` — build a target for every
declared port of every container and call `processTarget` on each; a failing
target does not block its siblings, and the overall call returns the last
error encountered. -/
def portForwardPod (pool : List Nat) (forwardFails : Bool) (s : PFState)
    (pod : Pod) : PFState × Option PFError :=
  (podTargets pod).foldl
    (fun acc t =>
      let r := processTarget pool forwardFails acc.1 t
      (r.1, r.2.orElse fun _ => acc.2))
    (s, none)

/-- The type of a watch event (`watch.EventType`: Added, Modified, Deleted,
Error). -/
inductive EventType where
  | Added
  | Modified
  | Deleted
  | ErrorEvent
deriving Repr, DecidableEq

/-- A watch event: its type and its object, `none` when the delivered object
is not a pod. -/
structure WatchEvent where
  eventType : EventType
  object : Option Pod
deriving Repr, DecidableEq

/-- Modelled from the spec: keep only the containers whose image is a member
of the externally supplied tracked-image set. -/
def filterTracked (tracked : List String) (pod : Pod) : Pod :=
  { pod with containers := pod.containers.filter (fun c => tracked.contains c.image) }

/-- Modelled from the spec: the Watching Pod Forwarder's per-event handling
(its implementation is not in the snapshot).  Ignore events whose object is
not a pod; ignore Deleted and Error events for forwarding purposes; for
add/modify events ignore pods not in the Running phase and containers whose
image is not tracked; forward the rest through `portForwardPod`. -/
def handleEvent (tracked : List String) (pool : List Nat)
    (forwardFails : Bool) (s : PFState) (e : WatchEvent) :
    PFState × Option PFError :=
  match e.object with
  | none => (s, none)
  | some pod =>
    match e.eventType with
    | .Deleted => (s, none)
    | .ErrorEvent => (s, none)
    | _ =>
      if pod.phase = "Running" then
        portForwardPod pool forwardFails s (filterTracked tracked pod)
      else (s, none)

end PortForward

namespace Errors

/-- The status codes of `proto.StatusCode` used in `errors.go`; codes carried
by the known problems of the (absent) `problems.go` are abstracted by
`OTHER`. -/
inductive StatusCode where
  | UNKNOWN_ERROR
  | BUILD_UNKNOWN
  | INIT_UNKNOWN
  | DEPLOY_UNKNOWN
  | STATUSCHECK_UNKNOWN
  | SYNC_UNKNOWN
  | DEVINIT_UNKNOWN
  | CLEANUP_UNKNOWN
  | OTHER (n : Nat)
deriving Repr, DecidableEq

/-- The suggestion codes of `proto.SuggestionCode`; only `OPEN_ISSUE` appears
in `errors.go`, the rest are abstracted. -/
inductive SuggestionCode where
  | OPEN_ISSUE
  | OTHER_SUGGESTION (n : Nat)
deriving Repr, DecidableEq

/-- `proto.Suggestion`: a suggestion code plus an action text. -/
structure Suggestion where
  suggestionCode : SuggestionCode
  action : String
deriving Repr, DecidableEq

/-- The `Config` passed to the suggestion builders; `errors.go` only threads
it through, so it is abstracted to a unit value. -/
abbrev Config := Unit

/-- A `problem` row of the classifier table: the compiled regular expression
(embedded by its `MatchString` matcher), the status code, and the suggestion
builder.  The `description` field of `problems.go` is unused by
`getErrorCodeFromError` and omitted. -/
structure problem where
  regexp : String → Bool
  errCode : StatusCode
  suggestion : Config → List Suggestion

/-- The matcher of the compiled catch-all pattern `re(".*")`: an unanchored
match of `.*` succeeds on every string (it matches the empty prefix). -/
def matchAnyRegexp : String → Bool := fun _ => true

/-- `reportIssueText` from `errors.go`: the fixed report-issue sentence built
around `constants.GithubIssueLink` (the constant's value lives outside the
snapshot, so the link is a parameter). -/
def reportIssueText (githubIssueLink : String) : String :=
  "If above error is unexpected, please open an issue " ++ githubIssueLink ++
    " to report this error"

/-- `reportIssueSuggestion` from `errors.go`: ignores the config and returns
the single OPEN_ISSUE suggestion with the report-issue text. -/
def reportIssueSuggestion (githubIssueLink : String) :
    Config → List Suggestion :=
  fun _ => [{ suggestionCode := .OPEN_ISSUE
              action := reportIssueText githubIssueLink }]

/-- The `allErrors` map of `errors.go`, keyed by the `Phase` string.  The
known-problem lists `knownBuildProblems`, `knownInitProblems`,
`knownDeployProblems` and the `oldImageManifest` problem come from the absent
`problems.go` and are parameters; each phase's list ends with the catch-all
`re(".*")` problem carrying the phase's `*_UNKNOWN` code and
`reportIssueSuggestion`. -/
def allErrors (kb ki kd : List problem) (oim : problem) (link : String)
    (phase : String) : Option (List problem) :=
  if phase = "Build" then
    some (kb ++ [⟨matchAnyRegexp, .BUILD_UNKNOWN, reportIssueSuggestion link⟩])
  else if phase = "Init" then
    some (ki ++ [⟨matchAnyRegexp, .INIT_UNKNOWN, reportIssueSuggestion link⟩])
  else if phase = "Deploy" then
    some (kd ++ [⟨matchAnyRegexp, .DEPLOY_UNKNOWN, reportIssueSuggestion link⟩])
  else if phase = "StatusCheck" then
    some [⟨matchAnyRegexp, .STATUSCHECK_UNKNOWN, reportIssueSuggestion link⟩]
  else if phase = "FileSync" then
    some [⟨matchAnyRegexp, .SYNC_UNKNOWN, reportIssueSuggestion link⟩]
  else if phase = "DevInit" then
    some [oim, ⟨matchAnyRegexp, .DEVINIT_UNKNOWN, reportIssueSuggestion link⟩]
  else if phase = "Cleanup" then
    some [⟨matchAnyRegexp, .CLEANUP_UNKNOWN, reportIssueSuggestion link⟩]
  else none

/-- An error value as `getErrorCodeFromError` sees it: its message text and,
when `errors.As(err, &sErr)` succeeds (the error is a structured skaffold
`Error`), that error's status code and suggestions. -/
structure ErrValue where
  message : String
  skaffoldErr : Option (StatusCode × List Suggestion)

/-- `getErrorCodeFromError` from `errors.go`: a structured skaffold error
reports its own code and suggestions; otherwise the phase's problem list is
scanned in order for the first regexp matching the error text; a phase absent
from the table (or, dead code given the catch-alls, an exhausted list) falls
back to `UNKNOWN_ERROR` with nil suggestions. -/
def getErrorCodeFromError (kb ki kd : List problem) (oim : problem)
    (link : String) (cfg : Config) (phase : String) (err : ErrValue) :
    StatusCode × List Suggestion :=
  match err.skaffoldErr with
  | some (code, sugg) => (code, sugg)
  | none =>
    match allErrors kb ki kd oim link phase with
    | some problems =>
      match problems.find? (fun p => p.regexp err.message) with
      | some p => (p.errCode, p.suggestion cfg)
      | none => (.UNKNOWN_ERROR, [])
    | none => (.UNKNOWN_ERROR, [])

/-- The known problems the classifier tries for a phase before its catch-all
row: the rows of `allErrors` minus the final `re(".*")` fallback. -/
def knownProblemsOf (kb ki kd : List problem) (oim : problem)
    (phase : String) : Option (List problem) :=
  if phase = "Build" then some kb
  else if phase = "Init" then some ki
  else if phase = "Deploy" then some kd
  else if phase = "StatusCheck" then some []
  else if phase = "FileSync" then some []
  else if phase = "DevInit" then some [oim]
  else if phase = "Cleanup" then some []
  else none

/-- The generic unknown-error status code of each phase in the table. -/
def phaseUnknownCode (phase : String) : Option StatusCode :=
  if phase = "Build" then some .BUILD_UNKNOWN
  else if phase = "Init" then some .INIT_UNKNOWN
  else if phase = "Deploy" then some .DEPLOY_UNKNOWN
  else if phase = "StatusCheck" then some .STATUSCHECK_UNKNOWN
  else if phase = "FileSync" then some .SYNC_UNKNOWN
  else if phase = "DevInit" then some .DEVINIT_UNKNOWN
  else if phase = "Cleanup" then some .CLEANUP_UNKNOWN
  else none

end Errors

namespace PortForward

/-- The local ports held by the live entries of the Forwarded Resource
Registry, in registry order. -/
def entryPorts (s : PFState) : List Nat :=
  s.forwardedResources.map (fun kv => kv.2.localPort)

/-- The port-allocation invariant of the Entry Manager's state: no two live
entries hold the same local port, and every held port is recorded in the
Local Port Registry and drawn from the allocator's pool. -/
def PortInv (pool : List Nat) (s : PFState) : Prop :=
  (entryPorts s).Nodup ∧
    ∀ q ∈ entryPorts s, q ∈ s.forwardedPorts ∧ q ∈ pool

/-- The key an entry describes: its container name, namespace, port name and
container port joined by hyphens. -/
def keyOfEntry (e : portForwardEntry) : String :=
  e.containerName ++ "-" ++ e.resource.nspace ++ "-" ++ e.portName ++ "-" ++
    toString e.resource.port

/-- The key-shape invariant: every binding of the Forwarded Resource Registry
maps the hyphen-joined identity key of its entry. -/
def KeyInv (s : PFState) : Prop :=
  ∀ kv ∈ s.forwardedResources, kv.1 = keyOfEntry kv.2

/-- Fixture: the target of the "single container port" test, resource
version 1. -/
def targetV1 : ForwardingTarget :=
  ⟨"namespace", "podname", "containername", "portname", 8080, "1", true⟩

/-- Fixture: the same target at resource version 2. -/
def targetV2 : ForwardingTarget :=
  ⟨"namespace", "podname", "containername", "portname", 8080, "2", true⟩

/-- Fixture: the entry created for `targetV1` when port 8080 is free. -/
def entryV1 : portForwardEntry :=
  ⟨1, "podname", "containername", "portname",
    ⟨"pod", "podname", "namespace", 8080, 8080⟩, true, 8080⟩

/-- Fixture: the Entry Manager state holding exactly `entryV1`. -/
def stateW : PFState :=
  ⟨[8080], [("containername-namespace-portname-8080", entryV1)], 1, 0⟩

/-- Fixture: the pod of the "single container port" test. -/
def podW : Pod :=
  ⟨"podname", "namespace", "1", "",
    [⟨"containername", "", [⟨"portname", 8080⟩]⟩]⟩

/-- Fixture: the pod of the "bad resource version" test. -/
def podBadRV : Pod :=
  ⟨"podname", "namespace", "10000000000a", "",
    [⟨"containername", "", [⟨"portname", 8080⟩]⟩]⟩

/-- Fixture: the Running pod of the `TestStartPodForwarder` scenario, with a
tracked container image. -/
def podRunning : Pod :=
  ⟨"", "default", "9", "Running",
    [⟨"mycontainer", "image", [⟨"myport", 8080⟩]⟩]⟩

/-- Fixture: the single container of `podW`. -/
def containerW : Container := ⟨"containername", "", [⟨"portname", 8080⟩]⟩

/-- Fixture: the single declared port of `containerW`. -/
def cportW : ContainerPort := ⟨"portname", 8080⟩

/-- Fixture: the single container of `podRunning`. -/
def containerR : Container := ⟨"mycontainer", "image", [⟨"myport", 8080⟩]⟩

/-- Fixture: the single declared port of `containerR`. -/
def cportR : ContainerPort := ⟨"myport", 8080⟩

/-- Fixture: a Modified watch event carrying `podRunning`. -/
def evModified : WatchEvent := ⟨.Modified, some podRunning⟩

/-- Fixture: a Deleted watch event carrying `podRunning`. -/
def evDeleted : WatchEvent := ⟨.Deleted, some podRunning⟩

/-- Fixture: an Error watch event carrying `podRunning`. -/
def evError : WatchEvent := ⟨.ErrorEvent, some podRunning⟩

/-- Fixture: a Modified watch event whose object is not a pod. -/
def evNonPod : WatchEvent := ⟨.Modified, none⟩

end PortForward

namespace Errors

/-- Fixture: a known problem whose pattern matches nothing. -/
def oimW : problem := ⟨fun _ => false, .OTHER 0, fun _ => []⟩

/-- Fixture: a plain error value that is not a structured skaffold error. -/
def errW : ErrValue := ⟨"some failure", none⟩

end Errors

namespace PortForward

theorem head?_mem {α : Type} {l : List α} {a : α} (h : l.head? = some a) :
    a ∈ l := by
  cases l with
  | nil => simp at h
  | cons b t =>
    simp only [List.head?] at h
    injection h with h
    simp [h]

theorem allocatePort_mem_pool {preferred : Nat} {taken pool : List Nat}
    {p : Nat} (h : allocatePort preferred taken pool = some p) : p ∈ pool := by
  unfold allocatePort at h
  split at h
  next hc =>
    injection h with h
    exact h ▸ hc.1
  next =>
    have := head?_mem h
    exact (List.mem_filter.1 this).1

theorem allocatePort_not_taken {preferred : Nat} {taken pool : List Nat}
    {p : Nat} (h : allocatePort preferred taken pool = some p) : p ∉ taken := by
  unfold allocatePort at h
  split at h
  next hc =>
    injection h with h
    exact h ▸ hc.2
  next =>
    have := head?_mem h
    simpa using (List.mem_filter.1 this).2

theorem lookupEntry_mem {m : List (String × portForwardEntry)} {k : String}
    {e : portForwardEntry} (h : lookupEntry m k = some e) : (k, e) ∈ m := by
  induction m with
  | nil => simp [lookupEntry] at h
  | cons hd tl ih =>
    obtain ⟨k', e'⟩ := hd
    simp only [lookupEntry] at h
    split at h
    next heq =>
      injection h with h
      simp [heq, h]
    next => exact List.mem_cons_of_mem _ (ih h)

theorem insertEntry_of_lookup_none {m : List (String × portForwardEntry)}
    {k : String} (e : portForwardEntry) (h : lookupEntry m k = none) :
    insertEntry m k e = m ++ [(k, e)] := by
  induction m with
  | nil => simp [insertEntry]
  | cons hd tl ih =>
    obtain ⟨k', e'⟩ := hd
    simp only [lookupEntry] at h
    split at h
    next => simp at h
    next hne => simp [insertEntry, hne, ih h]

theorem lookup_insert_self (m : List (String × portForwardEntry)) (k : String)
    (e : portForwardEntry) : lookupEntry (insertEntry m k e) k = some e := by
  induction m with
  | nil => simp [insertEntry, lookupEntry]
  | cons hd tl ih =>
    obtain ⟨k', e'⟩ := hd
    by_cases hk : k' = k
    · simp [insertEntry, lookupEntry, hk]
    · simp [insertEntry, lookupEntry, hk, ih]

theorem lookup_insert_ne (m : List (String × portForwardEntry))
    {k k' : String} (e : portForwardEntry) (hne : k' ≠ k) :
    lookupEntry (insertEntry m k e) k' = lookupEntry m k' := by
  induction m with
  | nil => simp [insertEntry, lookupEntry, Ne.symm hne]
  | cons hd tl ih =>
    obtain ⟨k₀, e₀⟩ := hd
    by_cases hk : k₀ = k
    · subst hk
      simp [insertEntry, lookupEntry, Ne.symm hne]
    · simp [insertEntry, lookupEntry, hk, ih]

theorem insertEntry_map_localPort {m : List (String × portForwardEntry)}
    {k : String} {e existing : portForwardEntry}
    (h : lookupEntry m k = some existing)
    (hp : e.localPort = existing.localPort) :
    (insertEntry m k e).map (fun kv => kv.2.localPort) =
      m.map (fun kv => kv.2.localPort) := by
  induction m with
  | nil => simp [lookupEntry] at h
  | cons hd tl ih =>
    obtain ⟨k₀, e₀⟩ := hd
    simp only [lookupEntry] at h
    by_cases hk : k₀ = k
    · rw [if_pos hk] at h
      injection h with h
      simp [insertEntry, hk, hp, h]
    · rw [if_neg hk] at h
      simp [insertEntry, hk, ih h]

theorem mem_insertEntry {m : List (String × portForwardEntry)} {k : String}
    {e : portForwardEntry} {kv : String × portForwardEntry}
    (h : kv ∈ insertEntry m k e) : kv ∈ m ∨ kv = (k, e) := by
  induction m with
  | nil => simp [insertEntry] at h; simp [h]
  | cons hd tl ih =>
    obtain ⟨k₀, e₀⟩ := hd
    by_cases hk : k₀ = k
    · simp only [insertEntry, if_pos hk] at h
      rcases List.mem_cons.1 h with h | h
      · exact Or.inr h
      · exact Or.inl (List.mem_cons_of_mem _ h)
    · simp only [insertEntry, if_neg hk] at h
      rcases List.mem_cons.1 h with h | h
      · exact Or.inl (h ▸ List.mem_cons_self _ _)
      · rcases ih h with h | h
        · exact Or.inl (List.mem_cons_of_mem _ h)
        · exact Or.inr h

end PortForward

namespace PortForward

theorem portInv_processTarget (pool : List Nat) (ff : Bool) (s : PFState)
    (t : ForwardingTarget) (h : PortInv pool s) :
    PortInv pool (processTarget pool ff s t).1 := by
  cases hrv : parseResourceVersion t.resourceVersion with
  | none => simpa only [processTarget, hrv] using h
  | some rv =>
    cases hl : lookupEntry s.forwardedResources (buildKey t) with
    | none =>
      cases ha : allocatePort t.containerPort s.forwardedPorts pool with
      | none => simpa only [processTarget, hrv, hl, ha] using h
      | some p =>
        simp only [processTarget, hrv, hl, ha]
        obtain ⟨hnd, hmem⟩ := h
        have hpool : p ∈ pool := allocatePort_mem_pool ha
        have htaken : p ∉ s.forwardedPorts := allocatePort_not_taken ha
        have hports : entryPorts
            { forwardedPorts := p :: s.forwardedPorts
              forwardedResources := insertEntry s.forwardedResources
                (buildKey t) (newEntry t rv p)
              forwardCalls := s.forwardCalls + 1
              terminateCalls := s.terminateCalls } = entryPorts s ++ [p] := by
          simp only [entryPorts, insertEntry_of_lookup_none (newEntry t rv p) hl,
            List.map_append, List.map_cons, List.map_nil]
          rfl
        constructor
        · rw [hports]
          refine List.nodup_append.2 ⟨hnd, List.nodup_singleton p, ?_⟩
          rw [List.disjoint_singleton]
          intro hp
          exact htaken (hmem p hp).1
        · intro q hq
          rw [hports, List.mem_append] at hq
          rcases hq with hq | hq
          · exact ⟨List.mem_cons_of_mem _ (hmem q hq).1, (hmem q hq).2⟩
          · simp only [List.mem_singleton] at hq
            subst hq
            exact ⟨List.mem_cons_self _ _, hpool⟩
    | some existing =>
      by_cases hle : rv ≤ existing.resourceVersion
      · simpa only [processTarget, hrv, hl, if_pos hle] using h
      · simp only [processTarget, hrv, hl, if_neg hle]
        obtain ⟨hnd, hmem⟩ := h
        have hports : entryPorts
            { forwardedPorts := s.forwardedPorts
              forwardedResources := insertEntry s.forwardedResources
                (buildKey t) { existing with resourceVersion := rv }
              forwardCalls := s.forwardCalls + 1
              terminateCalls := s.terminateCalls + 1 } = entryPorts s := by
          simp [entryPorts]
          exact insertEntry_map_localPort hl rfl
        exact ⟨by rw [hports]; exact hnd, by rw [hports]; exact hmem⟩

theorem portInv_processTargets (pool : List Nat) (ff : Bool)
    (ts : List ForwardingTarget) :
    ∀ s : PFState, PortInv pool s → PortInv pool (processTargets pool ff s ts) := by
  induction ts with
  | nil => intro s h; simpa [processTargets] using h
  | cons t ts ih =>
    intro s h
    simp only [processTargets, List.foldl_cons]
    exact ih _ (portInv_processTarget pool ff s t h)

theorem keyInv_processTarget (pool : List Nat) (ff : Bool) (s : PFState)
    (t : ForwardingTarget) (h : KeyInv s) :
    KeyInv (processTarget pool ff s t).1 := by
  cases hrv : parseResourceVersion t.resourceVersion with
  | none => simpa only [processTarget, hrv] using h
  | some rv =>
    cases hl : lookupEntry s.forwardedResources (buildKey t) with
    | none =>
      cases ha : allocatePort t.containerPort s.forwardedPorts pool with
      | none => simpa only [processTarget, hrv, hl, ha] using h
      | some p =>
        simp only [processTarget, hrv, hl, ha]
        intro kv hkv
        rcases mem_insertEntry hkv with hkv | hkv
        · exact h kv hkv
        · subst hkv
          simp [buildKey, keyOfEntry, newEntry]
    | some existing =>
      by_cases hle : rv ≤ existing.resourceVersion
      · simpa only [processTarget, hrv, hl, if_pos hle] using h
      · simp only [processTarget, hrv, hl, if_neg hle]
        intro kv hkv
        rcases mem_insertEntry hkv with hkv | hkv
        · exact h kv hkv
        · subst hkv
          have : buildKey t = keyOfEntry existing := h _ (lookupEntry_mem hl)
          simpa [keyOfEntry] using this

theorem keyInv_processTargets (pool : List Nat) (ff : Bool)
    (ts : List ForwardingTarget) :
    ∀ s : PFState, KeyInv s → KeyInv (processTargets pool ff s ts) := by
  induction ts with
  | nil => intro s h; simpa [processTargets] using h
  | cons t ts ih =>
    intro s h
    simp only [processTargets, List.foldl_cons]
    exact ih _ (keyInv_processTarget pool ff s t h)

end PortForward

namespace PortForward

theorem podTargets_resourceVersion (pod : Pod) :
    ∀ t ∈ podTargets pod, t.resourceVersion = pod.resourceVersion := by
  intro t ht
  simp only [podTargets, List.mem_flatten, List.mem_map] at ht
  obtain ⟨l, ⟨c, hc, rfl⟩, htl⟩ := ht
  simp only [containerTargets, List.mem_map] at htl
  obtain ⟨pt, hpt, rfl⟩ := htl
  rfl

theorem foldl_invalid (pool : List Nat) (ff : Bool) :
    ∀ l : List ForwardingTarget, (∀ t ∈ l, parseResourceVersion t.resourceVersion = none) →
      ∀ (a : PFState) (e : Option PFError),
        l.foldl (fun acc t =>
            let r := processTarget pool ff acc.1 t
            (r.1, r.2.orElse fun _ => acc.2)) (a, e) =
          (a, if l.isEmpty then e else some .invalidResourceVersion) := by
  intro l
  induction l with
  | nil => intro _ a e; simp
  | cons t ts ih =>
    intro h a e
    have ht : parseResourceVersion t.resourceVersion = none := h t (List.mem_cons_self _ _)
    rw [List.foldl_cons]
    have hstep : (let r := processTarget pool ff ((a, e) :
          PFState × Option PFError).1 t
        (r.1, r.2.orElse fun _ => ((a, e) : PFState × Option PFError).2)) =
          ((a, some .invalidResourceVersion) : PFState × Option PFError) := by
      simp [processTarget, ht]
    rw [hstep, ih (fun t' ht' => h t' (List.mem_cons_of_mem _ ht'))]
    simp

theorem portForwardPod_invalid_rv (pool : List Nat) (ff : Bool) (s : PFState)
    (pod : Pod) (hrv : parseResourceVersion pod.resourceVersion = none)
    (hne : podTargets pod ≠ []) :
    portForwardPod pool ff s pod = (s, some .invalidResourceVersion) := by
  unfold portForwardPod
  rw [foldl_invalid pool ff (podTargets pod)
    (fun t ht => by rw [podTargets_resourceVersion pod t ht]; exact hrv) s none]
  simp only [List.isEmpty_iff, Prod.mk.injEq, true_and]
  rw [if_neg hne]

theorem portForwardPod_single (pool : List Nat) (ff : Bool) (s : PFState)
    (pod : Pod) (c : Container) (pt : ContainerPort) (rv : Nat)
    (hcs : pod.containers = [c]) (hps : c.ports = [pt])
    (hrv : parseResourceVersion pod.resourceVersion = some rv)
    (hl : lookupEntry s.forwardedResources (buildKey (mkTarget pod c pt)) = none)
    (hpool : pt.containerPort ∈ pool)
    (htaken : pt.containerPort ∉ s.forwardedPorts) :
    lookupEntry (portForwardPod pool ff s pod).1.forwardedResources
        (buildKey (mkTarget pod c pt)) =
      some (newEntry (mkTarget pod c pt) rv pt.containerPort) ∧
    (portForwardPod pool ff s pod).1.forwardCalls = s.forwardCalls + 1 := by
  have htl : parseResourceVersion (mkTarget pod c pt).resourceVersion = some rv := hrv
  have hport : (mkTarget pod c pt).containerPort = pt.containerPort := rfl
  have halloc : allocatePort pt.containerPort s.forwardedPorts pool =
      some pt.containerPort := by
    unfold allocatePort
    rw [if_pos ⟨hpool, htaken⟩]
  have htargets : podTargets pod = [mkTarget pod c pt] := by
    simp [podTargets, containerTargets, hcs, hps]
  unfold portForwardPod
  rw [htargets]
  simp only [List.foldl_cons, List.foldl_nil]
  simp only [processTarget, htl, hl, hport, halloc]
  exact ⟨lookup_insert_self _ _ _, trivial⟩

end PortForward

namespace Errors

theorem find_catchAll (msg : String) (c : problem) (hc : c.regexp msg = true) :
    ∀ l : List problem, (∀ p ∈ l, p.regexp msg = false) →
      (l ++ [c]).find? (fun p => p.regexp msg) = some c := by
  intro l
  induction l with
  | nil => intro _; simp [List.find?, hc]
  | cons a l ih =>
    intro h
    have ha : a.regexp msg = false := h a (List.mem_cons_self _ _)
    simp only [List.cons_append, List.find?, ha]
    exact ih fun p hp => h p (List.mem_cons_of_mem _ hp)

end Errors

namespace PortForward

/-- Claim C1: for every sequence of processed targets, no two live forwarding
entries ever hold the same local port — when a target's preferred local port
is already taken by a live entry, `processTarget` assigns some other available
port from the allocator's pool, never one already held by a live entry; in
particular two distinct pods exposing the same container port receive two
distinct local ports. -/
theorem processTargets_no_port_collision (pool : List Nat) (ff : Bool)
    (ts : List ForwardingTarget) :
    (entryPorts (processTargets pool ff initState ts)).Nodup ∧
      ∀ q ∈ entryPorts (processTargets pool ff initState ts), q ∈ pool := by
  have h := portInv_processTargets pool ff ts initState
    ⟨by simp [entryPorts, initState], by simp [entryPorts, initState]⟩
  unfold PortInv at h
  exact ⟨h.1, fun q hq => (h.2 q hq).2⟩

/-- Claim C2: for an existing entry, processing the same key with a strictly
greater resource version updates the entry's stored resource version in place
while keeping its previously assigned local port; every other key and the
Local Port Registry are untouched, so there is exactly one entry for the key,
with the newer version and the original local port. -/
theorem processTarget_newer_version_updates_in_place (pool : List Nat)
    (ff : Bool) (s : PFState) (t : ForwardingTarget) (rv : Nat)
    (existing : portForwardEntry)
    (hrv : parseResourceVersion t.resourceVersion = some rv)
    (hl : lookupEntry s.forwardedResources (buildKey t) = some existing)
    (hgt : existing.resourceVersion < rv) :
    lookupEntry (processTarget pool ff s t).1.forwardedResources (buildKey t) =
        some { existing with resourceVersion := rv } ∧
      ({ existing with resourceVersion := rv } : portForwardEntry).localPort =
        existing.localPort ∧
      (∀ k, k ≠ buildKey t →
        lookupEntry (processTarget pool ff s t).1.forwardedResources k =
          lookupEntry s.forwardedResources k) ∧
      (processTarget pool ff s t).1.forwardedPorts = s.forwardedPorts := by
  have hnle : ¬ rv ≤ existing.resourceVersion := by omega
  refine ⟨?_, rfl, ?_, ?_⟩
  · simp only [processTarget, hrv, hl, if_neg hnle]
    exact lookup_insert_self _ _ _
  · intro k hk
    simp only [processTarget, hrv, hl, if_neg hnle]
    exact lookup_insert_ne _ _ hk
  · simp only [processTarget, hrv, hl, if_neg hnle]

theorem processTarget_newer_version_witness :
    lookupEntry (processTarget [8080] false stateW targetV2).1.forwardedResources
        (buildKey targetV2) = some { entryV1 with resourceVersion := 2 } ∧
      ({ entryV1 with resourceVersion := 2 } : portForwardEntry).localPort =
        entryV1.localPort ∧
      lookupEntry (processTarget [8080] false stateW targetV2).1.forwardedResources
          "other" = lookupEntry stateW.forwardedResources "other" ∧
      (processTarget [8080] false stateW targetV2).1.forwardedPorts =
        stateW.forwardedPorts := by
  have h := processTarget_newer_version_updates_in_place [8080] false stateW
    targetV2 2 entryV1 (by decide) (by decide) (by decide)
  exact ⟨h.1, h.2.1, h.2.2.1 "other" (by decide), h.2.2.2⟩

/-- Claim C3: `processTarget` is idempotent for equal or older resource
versions — when an entry exists for the key and the incoming version is no
newer, the call is a no-op returning success (the whole state, forward-call
counter included, is unchanged); re-processing a first-seen target a second
time leaves the state of the first call untouched, so one entry and one
forward call exist for the key. -/
theorem processTarget_idempotent (pool : List Nat) (ff : Bool) (s : PFState)
    (t : ForwardingTarget) (rv : Nat)
    (hrv : parseResourceVersion t.resourceVersion = some rv) :
    (∀ existing,
        lookupEntry s.forwardedResources (buildKey t) = some existing →
        rv ≤ existing.resourceVersion →
        processTarget pool ff s t = (s, none)) ∧
      (lookupEntry s.forwardedResources (buildKey t) = none →
        ∀ p, allocatePort t.containerPort s.forwardedPorts pool = some p →
          processTarget pool false ((processTarget pool false s t).1) t =
              ((processTarget pool false s t).1, none) ∧
            (processTarget pool false s t).1.forwardCalls =
              s.forwardCalls + 1) := by
  constructor
  · intro existing hl hle
    simp only [processTarget, hrv, hl, if_pos hle]
  · intro hl p ha
    have hs1 : (processTarget pool false s t).1 =
        { forwardedPorts := p :: s.forwardedPorts
          forwardedResources := insertEntry s.forwardedResources (buildKey t)
            (newEntry t rv p)
          forwardCalls := s.forwardCalls + 1
          terminateCalls := s.terminateCalls } := by
      simp only [processTarget, hrv, hl, ha]
    refine ⟨?_, by rw [hs1]⟩
    rw [hs1]
    have hl2 : lookupEntry (insertEntry s.forwardedResources (buildKey t)
        (newEntry t rv p)) (buildKey t) = some (newEntry t rv p) :=
      lookup_insert_self _ _ _
    have hrv2 : rv ≤ (newEntry t rv p).resourceVersion := Nat.le_refl rv
    simp only [processTarget, hrv, hl2, if_pos hrv2]

theorem processTarget_idempotent_witness :
    processTarget [8080] false stateW targetV1 = (stateW, none) ∧
      processTarget [8080] false
          ((processTarget [8080] false initState targetV1).1) targetV1 =
        ((processTarget [8080] false initState targetV1).1, none) ∧
      (processTarget [8080] false initState targetV1).1.forwardCalls =
        initState.forwardCalls + 1 := by
  have h1 := (processTarget_idempotent [8080] false stateW targetV1 1
    (by decide)).1 entryV1 (by decide) (by decide)
  have h2 := (processTarget_idempotent [8080] false initState targetV1 1
    (by decide)).2 (by decide) 8080 (by decide)
  exact ⟨h1, h2.1, h2.2⟩

/-- Claim C4: processing a pod whose resource-version string does not parse as
an integer fails with `InvalidResourceVersionError` and is atomic — the
returned state is exactly the input state, so no entry is created or modified
and the set of taken local ports is unchanged. -/
theorem invalid_resource_version_atomic (pool : List Nat) (ff : Bool)
    (s : PFState) (pod : Pod)
    (hrv : parseResourceVersion pod.resourceVersion = none)
    (hne : podTargets pod ≠ []) :
    portForwardPod pool ff s pod = (s, some PFError.invalidResourceVersion) :=
  portForwardPod_invalid_rv pool ff s pod hrv hne

theorem invalid_resource_version_witness :
    portForwardPod [8080] false initState podBadRV =
      (initState, some PFError.invalidResourceVersion) :=
  invalid_resource_version_atomic [8080] false initState podBadRV (by decide)
    (by decide)

/-- Claim C5: for a first-seen target whose `forward` call fails, the error is
propagated to the caller, yet the entry with its allocated local port and
resource version is recorded in the Forwarded Resource Registry and the port
is recorded as taken — the failed attempt is bookkept, not rolled back. -/
theorem processTarget_forward_error_bookkept (pool : List Nat) (s : PFState)
    (t : ForwardingTarget) (rv p : Nat)
    (hrv : parseResourceVersion t.resourceVersion = some rv)
    (hl : lookupEntry s.forwardedResources (buildKey t) = none)
    (ha : allocatePort t.containerPort s.forwardedPorts pool = some p) :
    (processTarget pool true s t).2 = some PFError.forwardFailed ∧
      lookupEntry (processTarget pool true s t).1.forwardedResources
          (buildKey t) = some (newEntry t rv p) ∧
      (newEntry t rv p).localPort = p ∧
      (newEntry t rv p).resourceVersion = rv ∧
      p ∈ (processTarget pool true s t).1.forwardedPorts := by
  refine ⟨?_, ?_, rfl, rfl, ?_⟩
  · simp [processTarget, hrv, hl, ha]
  · simp only [processTarget, hrv, hl, ha]
    exact lookup_insert_self _ _ _
  · simp only [processTarget, hrv, hl, ha]
    exact List.mem_cons_self _ _

theorem processTarget_forward_error_witness :
    (processTarget [8080] true initState targetV1).2 =
        some PFError.forwardFailed ∧
      lookupEntry
          (processTarget [8080] true initState targetV1).1.forwardedResources
          (buildKey targetV1) = some (newEntry targetV1 1 8080) ∧
      (newEntry targetV1 1 8080).localPort = 8080 ∧
      (newEntry targetV1 1 8080).resourceVersion = 1 ∧
      8080 ∈ (processTarget [8080] true initState targetV1).1.forwardedPorts :=
  processTarget_forward_error_bookkept [8080] initState targetV1 1 8080
    (by decide) (by decide) (by decide)

end PortForward

namespace PortForward

/-- Claim C6: for every pod with exactly one container and one named port, if
that container port number is available locally (not in the taken set and
usable, i.e. in the allocator's pool) and the key is first seen, the
resulting entry's local port equals the container port. -/
theorem singlePort_available_uses_container_port (pool : List Nat) (ff : Bool)
    (s : PFState) (pod : Pod) (c : Container) (pt : ContainerPort) (rv : Nat)
    (hcs : pod.containers = [c]) (hps : c.ports = [pt])
    (hrv : parseResourceVersion pod.resourceVersion = some rv)
    (hl : lookupEntry s.forwardedResources (buildKey (mkTarget pod c pt)) = none)
    (hpool : pt.containerPort ∈ pool)
    (htaken : pt.containerPort ∉ s.forwardedPorts) :
    lookupEntry (portForwardPod pool ff s pod).1.forwardedResources
        (buildKey (mkTarget pod c pt)) =
      some (newEntry (mkTarget pod c pt) rv pt.containerPort) ∧
    (newEntry (mkTarget pod c pt) rv pt.containerPort).localPort =
      pt.containerPort :=
  ⟨(portForwardPod_single pool ff s pod c pt rv hcs hps hrv hl hpool htaken).1,
    rfl⟩

theorem singlePort_available_witness :
    lookupEntry (portForwardPod [8080] false initState podW).1.forwardedResources
        (buildKey (mkTarget podW containerW cportW)) =
      some (newEntry (mkTarget podW containerW cportW) 1 cportW.containerPort) ∧
    (newEntry (mkTarget podW containerW cportW) 1 cportW.containerPort).localPort =
      cportW.containerPort :=
  singlePort_available_uses_container_port [8080] false initState podW
    containerW cportW 1 (by decide) (by decide) (by decide) (by decide)
    (by decide) (by decide)

/-- Claim C7: the Watching Pod Forwarder loop never forwards from a Deleted
event, an Error event, or an event whose object is not a pod — for such
events the state is unchanged (no entry created, no forward invoked); a
Modified event for a Running pod whose container image is in the tracked set
results in an entry being created and `forward` being invoked. -/
theorem watch_loop_filters_events (tracked : List String) (pool : List Nat)
    (ff : Bool) (s : PFState) (e : WatchEvent) :
    (e.object = none → handleEvent tracked pool ff s e = (s, none)) ∧
      (e.eventType = EventType.Deleted →
        handleEvent tracked pool ff s e = (s, none)) ∧
      (e.eventType = EventType.ErrorEvent →
        handleEvent tracked pool ff s e = (s, none)) ∧
      ∀ pod c pt rv, e.object = some pod →
        e.eventType = EventType.Modified → pod.phase = "Running" →
        pod.containers = [c] → tracked.contains c.image = true →
        c.ports = [pt] → parseResourceVersion pod.resourceVersion = some rv →
        lookupEntry s.forwardedResources (buildKey (mkTarget pod c pt)) = none →
        pt.containerPort ∈ pool → pt.containerPort ∉ s.forwardedPorts →
        lookupEntry (handleEvent tracked pool ff s e).1.forwardedResources
            (buildKey (mkTarget pod c pt)) =
          some (newEntry (mkTarget pod c pt) rv pt.containerPort) ∧
        (handleEvent tracked pool ff s e).1.forwardCalls =
          s.forwardCalls + 1 := by
  obtain ⟨et, obj⟩ := e
  refine ⟨?_, ?_, ?_, ?_⟩
  · intro h
    subst h
    rfl
  · intro h
    subst h
    cases obj <;> rfl
  · intro h
    subst h
    cases obj <;> rfl
  · intro pod c pt rv hobj het hphase hcs him hps hrv hl hpool htaken
    simp only at hobj het
    subst hobj
    subst het
    have hred : handleEvent tracked pool ff s ⟨EventType.Modified, some pod⟩ =
        portForwardPod pool ff s (filterTracked tracked pod) := by
      simp only [handleEvent, if_pos hphase]
    have him' : c.image ∈ tracked := by simpa using him
    have hcs' : (filterTracked tracked pod).containers = [c] := by
      simp [filterTracked, hcs, him']
    have h := portForwardPod_single pool ff s (filterTracked tracked pod) c pt
      rv hcs' hps hrv hl hpool htaken
    rw [hred]
    exact h

theorem watch_loop_filters_witness :
    handleEvent ["image"] [8080] false initState evNonPod =
        (initState, none) ∧
      handleEvent ["image"] [8080] false initState evDeleted =
        (initState, none) ∧
      handleEvent ["image"] [8080] false initState evError =
        (initState, none) ∧
      lookupEntry
          (handleEvent ["image"] [8080] false initState evModified).1.forwardedResources
          (buildKey (mkTarget podRunning containerR cportR)) =
        some (newEntry (mkTarget podRunning containerR cportR) 9
          cportR.containerPort) ∧
      (handleEvent ["image"] [8080] false initState evModified).1.forwardCalls =
        initState.forwardCalls + 1 := by
  have h4 := (watch_loop_filters_events ["image"] [8080] false initState
    evModified).2.2.2 podRunning containerR cportR 9 rfl rfl rfl (by decide)
    (by decide) (by decide) (by decide) (by decide) (by decide) (by decide)
  exact ⟨(watch_loop_filters_events ["image"] [8080] false initState
      evNonPod).1 rfl,
    (watch_loop_filters_events ["image"] [8080] false initState
      evDeleted).2.1 rfl,
    (watch_loop_filters_events ["image"] [8080] false initState
      evError).2.2.1 rfl,
    h4.1, h4.2⟩

/-- Claim C8: the identity key of every forwarding entry is the tuple
(containerName, namespace, portName, containerPort) joined by hyphens — the
key of every registered entry is the hyphen-join of that entry's fields, the
key does not depend on the pod's resource version (targets agreeing on those
four components share a key), and the observed form is
`containername-namespace-portname-8080`. -/
theorem entry_key_hyphen_format (pool : List Nat) (ff : Bool)
    (ts : List ForwardingTarget) :
    (∀ t t' : ForwardingTarget, t.containerName = t'.containerName →
        t.nspace = t'.nspace → t.portName = t'.portName →
        t.containerPort = t'.containerPort → buildKey t = buildKey t') ∧
      (∀ kv ∈ (processTargets pool ff initState ts).forwardedResources,
        kv.1 = keyOfEntry kv.2) ∧
      buildKey targetV1 = "containername-namespace-portname-8080" := by
  refine ⟨?_, ?_, ?_⟩
  · intro t t' h1 h2 h3 h4
    simp [buildKey, h1, h2, h3, h4]
  · exact keyInv_processTargets pool ff ts initState
      (by intro kv h; simp [initState] at h)
  · rfl

theorem entry_key_hyphen_format_witness :
    buildKey targetV1 = buildKey targetV2 ∧
      ("containername-namespace-portname-8080", newEntry targetV1 1 8080).1 =
        keyOfEntry
          ("containername-namespace-portname-8080", newEntry targetV1 1 8080).2 ∧
      buildKey targetV1 = "containername-namespace-portname-8080" := by
  have h := entry_key_hyphen_format [8080] false [targetV1]
  exact ⟨h.1 targetV1 targetV2 rfl rfl rfl rfl, h.2.1 _ (by decide), h.2.2⟩

/-- Claim C10: when a local port is allocated for a first-seen target, the
entry's embedded resource still carries the container port as its LocalPort
field even when the allocated port differs from it — the allocated local port
is reflected only in the entry's own localPort field and is never written
back into the embedded PortForwardResource. -/
theorem resource_local_port_not_rewritten (pool : List Nat) (ff : Bool)
    (s : PFState) (t : ForwardingTarget) (rv p : Nat)
    (hrv : parseResourceVersion t.resourceVersion = some rv)
    (hl : lookupEntry s.forwardedResources (buildKey t) = none)
    (ha : allocatePort t.containerPort s.forwardedPorts pool = some p)
    (_hne : p ≠ t.containerPort) :
    lookupEntry (processTarget pool ff s t).1.forwardedResources (buildKey t) =
        some (newEntry t rv p) ∧
      (newEntry t rv p).resource.localPort = t.containerPort ∧
      (newEntry t rv p).resource.port = t.containerPort ∧
      (newEntry t rv p).localPort = p := by
  refine ⟨?_, rfl, rfl, rfl⟩
  simp only [processTarget, hrv, hl, ha]
  exact lookup_insert_self _ _ _

theorem resource_local_port_witness :
    lookupEntry
        (processTarget [9000] false initState targetV1).1.forwardedResources
        (buildKey targetV1) = some (newEntry targetV1 1 9000) ∧
      (newEntry targetV1 1 9000).resource.localPort = targetV1.containerPort ∧
      (newEntry targetV1 1 9000).resource.port = targetV1.containerPort ∧
      (newEntry targetV1 1 9000).localPort = 9000 :=
  resource_local_port_not_rewritten [9000] false initState targetV1 1 9000
    (by decide) (by decide) (by decide) (by decide)

end PortForward

namespace Errors

theorem getError_eq_of_find (kb ki kd : List problem) (oim : problem)
    (link : String) (cfg : Config) (phase : String) (err : ErrValue)
    (problems : List problem) (p : problem)
    (hsk : err.skaffoldErr = none)
    (hall : allErrors kb ki kd oim link phase = some problems)
    (hfind : problems.find? (fun q => q.regexp err.message) = some p) :
    getErrorCodeFromError kb ki kd oim link cfg phase err =
      (p.errCode, p.suggestion cfg) := by
  simp only [getErrorCodeFromError, hsk, hall, hfind]

/-- Claim C9: for every phase listed in the classifier's table and every
error that is not a structured skaffold error and whose message matches none
of that phase's known-problem patterns, `getErrorCodeFromError` returns that
phase's generic unknown-error status code together with the report-issue
suggestion (the catch-all `.*` pattern at the end of each phase's ordered
list always matches). -/
theorem classifier_phase_fallback (kb ki kd : List problem) (oim : problem)
    (link : String) (cfg : Config) (phase : String) (err : ErrValue)
    (knowns : List problem) (code : StatusCode)
    (hknowns : knownProblemsOf kb ki kd oim phase = some knowns)
    (hcode : phaseUnknownCode phase = some code)
    (hsk : err.skaffoldErr = none)
    (hmatch : ∀ p ∈ knowns, p.regexp err.message = false) :
    getErrorCodeFromError kb ki kd oim link cfg phase err =
      (code, reportIssueSuggestion link cfg) := by
  by_cases h1 : phase = "Build"
  · subst h1
    simp only [knownProblemsOf, if_pos rfl] at hknowns
    simp only [phaseUnknownCode, if_pos rfl] at hcode
    injection hknowns with hknowns
    injection hcode with hcode
    subst hknowns
    subst hcode
    exact getError_eq_of_find kb ki kd oim link cfg _ err _
      ⟨matchAnyRegexp, .BUILD_UNKNOWN, reportIssueSuggestion link⟩ hsk
      (by simp [allErrors]) (find_catchAll err.message _ rfl kb hmatch)
  by_cases h2 : phase = "Init"
  · subst h2
    simp only [knownProblemsOf, if_pos rfl, if_neg h1] at hknowns
    simp only [phaseUnknownCode, if_pos rfl, if_neg h1] at hcode
    injection hknowns with hknowns
    injection hcode with hcode
    subst hknowns
    subst hcode
    exact getError_eq_of_find kb ki kd oim link cfg _ err _
      ⟨matchAnyRegexp, .INIT_UNKNOWN, reportIssueSuggestion link⟩ hsk
      (by simp [allErrors]) (find_catchAll err.message _ rfl ki hmatch)
  by_cases h3 : phase = "Deploy"
  · subst h3
    simp only [knownProblemsOf, if_pos rfl, if_neg h1, if_neg h2] at hknowns
    simp only [phaseUnknownCode, if_pos rfl, if_neg h1, if_neg h2] at hcode
    injection hknowns with hknowns
    injection hcode with hcode
    subst hknowns
    subst hcode
    exact getError_eq_of_find kb ki kd oim link cfg _ err _
      ⟨matchAnyRegexp, .DEPLOY_UNKNOWN, reportIssueSuggestion link⟩ hsk
      (by simp [allErrors]) (find_catchAll err.message _ rfl kd hmatch)
  by_cases h4 : phase = "StatusCheck"
  · subst h4
    simp only [knownProblemsOf, if_pos rfl, if_neg h1, if_neg h2, if_neg h3]
      at hknowns
    simp only [phaseUnknownCode, if_pos rfl, if_neg h1, if_neg h2, if_neg h3]
      at hcode
    injection hknowns with hknowns
    injection hcode with hcode
    subst hknowns
    subst hcode
    exact getError_eq_of_find kb ki kd oim link cfg _ err
      [⟨matchAnyRegexp, .STATUSCHECK_UNKNOWN, reportIssueSuggestion link⟩]
      ⟨matchAnyRegexp, .STATUSCHECK_UNKNOWN, reportIssueSuggestion link⟩ hsk
      (by simp [allErrors, h1, h2, h3]) rfl
  by_cases h5 : phase = "FileSync"
  · subst h5
    simp only [knownProblemsOf, if_pos rfl, if_neg h1, if_neg h2, if_neg h3,
      if_neg h4] at hknowns
    simp only [phaseUnknownCode, if_pos rfl, if_neg h1, if_neg h2, if_neg h3,
      if_neg h4] at hcode
    injection hknowns with hknowns
    injection hcode with hcode
    subst hknowns
    subst hcode
    exact getError_eq_of_find kb ki kd oim link cfg _ err
      [⟨matchAnyRegexp, .SYNC_UNKNOWN, reportIssueSuggestion link⟩]
      ⟨matchAnyRegexp, .SYNC_UNKNOWN, reportIssueSuggestion link⟩ hsk
      (by simp [allErrors, h1, h2, h3, h4]) rfl
  by_cases h6 : phase = "DevInit"
  · subst h6
    simp only [knownProblemsOf, if_pos rfl, if_neg h1, if_neg h2, if_neg h3,
      if_neg h4, if_neg h5] at hknowns
    simp only [phaseUnknownCode, if_pos rfl, if_neg h1, if_neg h2, if_neg h3,
      if_neg h4, if_neg h5] at hcode
    injection hknowns with hknowns
    injection hcode with hcode
    subst hknowns
    subst hcode
    have hoim : oim.regexp err.message = false := hmatch oim (by simp)
    refine getError_eq_of_find kb ki kd oim link cfg _ err
      [oim, ⟨matchAnyRegexp, .DEVINIT_UNKNOWN, reportIssueSuggestion link⟩]
      ⟨matchAnyRegexp, .DEVINIT_UNKNOWN, reportIssueSuggestion link⟩ hsk
      (by simp [allErrors, h1, h2, h3, h4, h5]) ?_
    simp [List.find?, hoim, matchAnyRegexp]
  by_cases h7 : phase = "Cleanup"
  · subst h7
    simp only [knownProblemsOf, if_pos rfl, if_neg h1, if_neg h2, if_neg h3,
      if_neg h4, if_neg h5, if_neg h6] at hknowns
    simp only [phaseUnknownCode, if_pos rfl, if_neg h1, if_neg h2, if_neg h3,
      if_neg h4, if_neg h5, if_neg h6] at hcode
    injection hknowns with hknowns
    injection hcode with hcode
    subst hknowns
    subst hcode
    exact getError_eq_of_find kb ki kd oim link cfg _ err
      [⟨matchAnyRegexp, .CLEANUP_UNKNOWN, reportIssueSuggestion link⟩]
      ⟨matchAnyRegexp, .CLEANUP_UNKNOWN, reportIssueSuggestion link⟩ hsk
      (by simp [allErrors, h1, h2, h3, h4, h5, h6]) rfl
  · simp [knownProblemsOf, h1, h2, h3, h4, h5, h6, h7] at hknowns

theorem classifier_phase_fallback_witness :
    getErrorCodeFromError [] [] [] oimW "LINK" () "StatusCheck" errW =
      (StatusCode.STATUSCHECK_UNKNOWN, reportIssueSuggestion "LINK" ()) :=
  classifier_phase_fallback [] [] [] oimW "LINK" () "StatusCheck" errW []
    StatusCode.STATUSCHECK_UNKNOWN (by simp [knownProblemsOf])
    (by simp [phaseUnknownCode]) rfl (by simp)

end Errors

namespace PortForward

theorem processTargets_no_port_collision_witness :
    (entryPorts (processTargets [8080] false initState [targetV1])).Nodup ∧
      (8080 : Nat) ∈ [8080] :=
  ⟨(processTargets_no_port_collision [8080] false [targetV1]).1,
    (processTargets_no_port_collision [8080] false [targetV1]).2 8080
      (by decide)⟩

end PortForward
